import Mathlib

/-!
Verification of the execution core of the geoflow-canvas workflow engine.

The definitions below are shallow embeddings of the TypeScript source:
* the dependency-graph resolver of `handleRunWorkflow`
  (src/components/workflow/WorkflowCanvas.tsx),
* the per-node run logic of `handleRunNode` / `handleUpdateData`,
* the operation dispatcher `processOperation` and helpers
  (src/lib/geoProcessing.ts).

Calls into the turf.js geometry library, the network and the script
evaluator are external collaborators of the core; they are modelled as
fields of an abstract `GeoKernel` record over which the theorems
quantify (concrete computable kernels instantiate the witnesses).
JavaScript numbers are modelled as rationals, JS exceptions as
`Except String`, and `undefined | null` as `Option`.
-/

namespace GeoFlow

/-! ## Dependency graph resolver (WorkflowCanvas.tsx, handleRunWorkflow)

The source builds the execution order by a depth-first postorder
traversal:

  const visit = (nodeId) => {
    if (visited.has(nodeId)) return;
    visited.add(nodeId);
    const dependencies = edges.filter(e => e.target === nodeId).map(e => e.source);
    dependencies.forEach(visit);
    executionOrder.push(nodeId);
  };
  nodes.forEach(n => visit(n.id));

The recursion is embedded with a fuel parameter; `executionOrder`
supplies fuel `nodes.length + edges.length + 1`, which the lemmas below
show is never exhausted (every recursive call strictly grows the
visited set inside the finite universe of node ids and edge sources).
-/

structure WEdge where
  source : String
  target : String
deriving DecidableEq, Repr

/-- Sources of the edges pointing into `n` - the nodes `n` depends on. -/
def deps (edges : List WEdge) (n : String) : List String :=
  (edges.filter (fun e => e.target = n)).map (fun e => e.source)

/-- Resolver state: the visited set and the execution order built so far. -/
abbrev VState := List String × List String

/-- The `visit` closure of `handleRunWorkflow`, with explicit fuel. -/
def visitF (edges : List WEdge) : Nat → String → VState → VState
  | 0, _, st => st
  | fuel + 1, n, st =>
    if n ∈ st.1 then st
    else
      let st1 := (deps edges n).foldl (fun s d => visitF edges fuel d s) (n :: st.1, st.2)
      (st1.1, st1.2 ++ [n])

/-- `handleRunWorkflow`'s execution order: visit every node in list order. -/
def executionOrder (nodes : List String) (edges : List WEdge) : List String :=
  (nodes.foldl (fun st n => visitF edges (nodes.length + edges.length + 1) n st)
    ([], [])).2

/-- One dependency edge step: some edge runs from `a` to `b`. -/
def DStep (edges : List WEdge) (a b : String) : Prop :=
  ∃ e ∈ edges, e.source = a ∧ e.target = b

/-- `b` transitively depends on `a`: a nonempty edge path leads from `a` to `b`. -/
def Reaches (edges : List WEdge) (a b : String) : Prop :=
  Relation.TransGen (DStep edges) a b

/-- The graph has no directed cycle. -/
def Acyclic (edges : List WEdge) : Prop :=
  ∀ n, ¬ Reaches edges n n

/-- An order is topologically sorted when every member's direct
dependencies occur in it, strictly earlier. -/
def TopoSorted (edges : List WEdge) (ord : List String) : Prop :=
  ∀ m ∈ ord, ∀ d, DStep edges d m → d ∈ ord ∧ ord.indexOf d < ord.indexOf m

/-- Number of elements of the universe `U` not yet visited. -/
def unvisited (U vis : List String) : Nat :=
  (U.filter (fun x => decide (x ∉ vis))).length

/-- Invariant tying the visited set, the order built so far and the (ghost)
recursion stack `gray`: visited = order-members plus stack, the order has no
duplicates, contains no stack member, and is topologically sorted. -/
def VisitPre (edges : List WEdge) (gray : List String) (st : VState) : Prop :=
  (∀ x, x ∈ st.1 ↔ x ∈ st.2 ∨ x ∈ gray) ∧
  st.2.Nodup ∧
  (∀ g ∈ gray, g ∉ st.2) ∧
  TopoSorted edges st.2

/-- Postcondition of one `visit` call: the invariant is preserved, the order
is only extended, the node itself is now visited, the visited set grows and
stays inside the previously visited set plus the universe `U`. -/
def VisitOut (edges : List WEdge) (U gray : List String) (n : String)
    (st st' : VState) : Prop :=
  (∃ l, st'.2 = st.2 ++ l) ∧
  VisitPre edges gray st' ∧
  n ∈ st'.1 ∧
  (∀ x ∈ st.1, x ∈ st'.1) ∧
  (∀ x ∈ st'.1, x ∈ st.1 ∨ x ∈ U)

/-- Postcondition of the `dependencies.forEach(visit)` fold. -/
def FoldOut (edges : List WEdge) (U gray : List String) (ds : List String)
    (st st' : VState) : Prop :=
  (∃ l, st'.2 = st.2 ++ l) ∧
  VisitPre edges gray st' ∧
  (∀ d ∈ ds, d ∈ st'.1) ∧
  (∀ x ∈ st.1, x ∈ st'.1) ∧
  (∀ x ∈ st'.1, x ∈ st.1 ∨ x ∈ U)

/-- Every id the traversal can ever visit: the nodes plus all edge sources. -/
def resolverUniverse (nodes : List String) (edges : List WEdge) : List String :=
  nodes ++ edges.map (fun e => e.source)

/-! ## Feature data model (geoProcessing.ts)

JSON scalar property values are modelled by `PValue` with JS numbers as
rationals. A JS object's property map is modelled as an association list
in assignment order where a later entry for a key shadows an earlier one
(`lookupProp` finds the last match); under this reading the object spread
`\x7b ...a, ...b \x7d` of the source is exactly list append (`mergeProps`).
The program never inspects coordinates itself (all coordinate work
happens inside turf.js), so a geometry is its GeoJSON `type` tag plus its
coordinate payload. -/

inductive PValue
  | str (s : String)
  | num (q : ℚ)
  | boolean (b : Bool)
  | null
deriving DecidableEq, Repr

abbrev PropMap := List (String × PValue)

/-- Value of key `k`: the last assignment wins, as in a JS object. -/
def lookupProp (m : PropMap) (k : String) : Option PValue :=
  (m.reverse.find? (fun p => p.1 == k)).map (fun p => p.2)

/-- JS object spread `\x7b ...m1, ...m2 \x7d`: assignments of `m2` shadow `m1`. -/
def mergeProps (m1 m2 : PropMap) : PropMap :=
  m1 ++ m2

structure Geometry where
  gtype : String
  coords : List (List (ℚ × ℚ))
deriving DecidableEq, Repr

structure PFeature where
  geometry : Option Geometry
  properties : PropMap
deriving DecidableEq, Repr

structure FCol where
  features : List PFeature
deriving DecidableEq, Repr

structure Stats where
  featureCount : Nat
  geometryType : String
  bbox : Option (ℚ × ℚ × ℚ × ℚ)
  properties : List String
deriving DecidableEq, Repr

structure ProcessingResult where
  success : Bool
  data : Option FCol
  error : Option String
  stats : Option Stats
deriving DecidableEq, Repr

def mkFailure (msg : String) : ProcessingResult :=
  { success := false, data := none, error := some msg, stats := none }

/-- JS `x || default` for an optional number: 0 (falsy) picks the default. -/
def jsOrQ (v : Option ℚ) (d : ℚ) : ℚ :=
  match v with
  | none => d
  | some q => if q = 0 then d else q

/-- JS `x || default` for an optional string: the empty string picks the default. -/
def jsOrS (v : Option String) (d : String) : String :=
  match v with
  | none => d
  | some s => if s = "" then d else s

/-- JS truthiness of an optional string config entry. -/
def jsTruthyStr (v : Option String) : Bool :=
  match v with
  | none => false
  | some s => !(s == "")

/-- JS `new Set(l)` iterated: first occurrences, in order. -/
def jsSetDedup (l : List String) : List String :=
  l.foldl (fun acc t => if t ∈ acc then acc else acc ++ [t]) []

/-- JS `Object.keys`: first occurrence of each key, in assignment order. -/
def jsKeys (m : PropMap) : List String :=
  jsSetDedup (m.map (fun p => p.1))

def joinComma : List String → String
  | [] => ""
  | [s] => s
  | s :: rest => s ++ ", " ++ joinComma rest

/-- `f.geometry?.type === 'Polygon' || f.geometry?.type === 'MultiPolygon'`. -/
def isPolygonal (f : PFeature) : Bool :=
  match f.geometry with
  | some g => g.gtype == "Polygon" || g.gtype == "MultiPolygon"
  | none => false

/-- JS `array.map(f)` where the callback may throw: elements are processed
left to right and the first exception aborts the whole map. -/
def mapME {α β : Type} (g : α → Except String β) : List α → Except String (List β)
  | [] => pure []
  | a :: l => do
    let b ← g a
    let bs ← mapME g l
    pure (b :: bs)

/-- The configuration map read by `processOperation` and `handleRunNode`
(only the keys the source actually reads). -/
structure OpConfig where
  distance : Option ℚ := none
  units : Option String := none
  tolerance : Option ℚ := none
  highQuality : Option Bool := none
  propertyName : Option String := none
  expression : Option String := none
  iterations : Option ℚ := none
  url : Option String := none
  code : Option String := none
  language : Option String := none
  format : Option String := none
  filename : Option String := none
deriving DecidableEq, Repr

/-- The turf.js / network / script collaborators `processOperation` and
`handleRunNode` call into. A `.error` value models the call throwing; an
`Option` result models a JS `undefined`/`null` return. -/
structure GeoKernel where
  buffer : PFeature → ℚ → String → Except String (Option PFeature)
  simplify : PFeature → ℚ → Bool → Except String PFeature
  centroid : PFeature → Except String PFeature
  bboxOf : PFeature → Except String PFeature
  dissolve : List PFeature → String → Except String (List PFeature)
  unionAll : List PFeature → Except String (Option PFeature)
  intersectPair : PFeature → PFeature → Except String (Option PFeature)
  area : PFeature → Except String ℚ
  distance : PFeature → PFeature → Except String ℚ
  evalExpr : String → PropMap → Except String Bool
  polygonSmooth : PFeature → ℚ → Except String (List PFeature)
  rewind : PFeature → Except String PFeature
  bboxFC : List PFeature → ℚ × ℚ × ℚ × ℚ
  fetchUrl : String → Except String FCol
  runScript : String → FCol → Except String (Option FCol)

/-- `createSuccessResult` of geoProcessing.ts. -/
def createSuccessResult (K : GeoKernel) (fc : FCol) : ProcessingResult :=
  { success := true
    data := some fc
    error := none
    stats := some
      { featureCount := fc.features.length
        geometryType :=
          let ts := jsSetDedup
            (((fc.features.map (fun f => f.geometry.map (fun g => g.gtype))).filterMap id).filter
              (fun s => s ≠ ""))
          if joinComma ts = "" then "Unknown" else joinComma ts
        bbox := if fc.features.length > 0 then some (K.bboxFC fc.features) else none
        properties :=
          match fc.features with
          | [] => []
          | f :: _ => jsKeys f.properties } }

/-- The sequential unit-conversion assignments of the `area` case. -/
def convertArea (area : ℚ) (units : String) : ℚ :=
  let c := area
  let c := if units = "square-kilometers" then area / 1000000 else c
  let c := if units = "square-miles" then area / (258998811 / 100) else c
  let c := if units = "hectares" then area / 10000 else c
  c

/-- The `buffer` case of the switch. -/
def opBuffer (K : GeoKernel) (input : FCol) (config : OpConfig) :
    Except String ProcessingResult := do
  let distance := jsOrQ config.distance 100
  let units := jsOrS config.units "meters"
  let buffered ← mapME (fun f => K.buffer f distance units) input.features
  pure (createSuccessResult K ⟨buffered.filterMap id⟩)

/-- The `simplify` case of the switch. -/
def opSimplify (K : GeoKernel) (input : FCol) (config : OpConfig) :
    Except String ProcessingResult := do
  let tolerance := jsOrQ config.tolerance (1 / 1000)
  let highQuality :=
    match config.highQuality with
    | some false => false
    | _ => true
  let simplified ← mapME (fun f => K.simplify f tolerance highQuality) input.features
  pure (createSuccessResult K ⟨simplified⟩)

/-- The `centroid` case of the switch. -/
def opCentroid (K : GeoKernel) (input : FCol) : Except String ProcessingResult := do
  let centroids ← mapME (fun f => do
    let c ← K.centroid f
    pure { c with properties := mergeProps f.properties c.properties })
    input.features
  pure (createSuccessResult K ⟨centroids⟩)

/-- The `bbox` case of the switch. -/
def opBbox (K : GeoKernel) (input : FCol) : Except String ProcessingResult := do
  let bboxes ← mapME (fun f => do
    let b ← K.bboxOf f
    pure { b with properties := f.properties })
    input.features
  pure (createSuccessResult K ⟨bboxes⟩)

/-- The `dissolve` case of the switch. -/
def opDissolve (K : GeoKernel) (input : FCol) (config : OpConfig) :
    Except String ProcessingResult :=
  if jsTruthyStr config.propertyName then
    let polygonFeatures := input.features.filter isPolygonal
    if polygonFeatures.length > 0 then do
      let dissolved ← K.dissolve polygonFeatures (jsOrS config.propertyName "")
      pure (createSuccessResult K ⟨dissolved⟩)
    else
      pure (createSuccessResult K input)
  else
    let polygonFeatures := input.features.filter isPolygonal
    if polygonFeatures.length > 1 then
      match K.unionAll polygonFeatures with
      | Except.ok u =>
          pure (createSuccessResult K
            ⟨match u with
             | some f => [f]
             | none => polygonFeatures⟩)
      | Except.error _ =>
          pure (createSuccessResult K ⟨polygonFeatures⟩)
    else
      pure (createSuccessResult K input)

/-- The per-pair intersection accumulation of the `intersect` case. -/
def intersectAll (K : GeoKernel) (primary targets : List PFeature) : List PFeature :=
  primary.foldl (fun acc f1 =>
    targets.foldl (fun acc f2 =>
      match K.intersectPair f1 f2 with
      | Except.ok (some inter) =>
          acc ++ [{ inter with properties := mergeProps f1.properties f2.properties }]
      | Except.ok none => acc
      | Except.error _ => acc) acc) []

/-- The `intersect` case of the switch. -/
def opIntersect (K : GeoKernel) (input : FCol) (secondaryInput : Option FCol) :
    Except String ProcessingResult :=
  match secondaryInput with
  | none => pure (mkFailure "Intersect requires a secondary input layer")
  | some sec => pure (createSuccessResult K ⟨intersectAll K input.features sec.features⟩)

/-- The `union` case of the switch. -/
def opUnion (K : GeoKernel) (input : FCol) (secondaryInput : Option FCol) :
    Except String ProcessingResult :=
  match secondaryInput with
  | none => pure (mkFailure "Union requires a secondary input layer")
  | some sec => pure (createSuccessResult K ⟨input.features ++ sec.features⟩)

/-- The `clip` case of the switch. -/
def opClip (K : GeoKernel) (input : FCol) (secondaryInput : Option FCol) :
    Except String ProcessingResult :=
  match secondaryInput with
  | none => pure (mkFailure "Clip requires a mask layer")
  | some sec =>
    match sec.features with
    | [] => pure (mkFailure "Clip requires a mask layer")
    | mask :: _ =>
      let clipped := input.features.filterMap (fun f =>
        match K.intersectPair f mask with
        | Except.ok r => r
        | Except.error _ => none)
      pure (createSuccessResult K ⟨clipped⟩)

/-- The `area` case of the switch. -/
def opArea (K : GeoKernel) (input : FCol) (config : OpConfig) :
    Except String ProcessingResult := do
  let units := jsOrS config.units "square-kilometers"
  let withArea ← mapME (fun f => do
    let a ← K.area f
    let props := mergeProps f.properties
      [("area", PValue.num (convertArea a units)),
       ("area_units", PValue.str units)]
    pure { f with properties := props })
    input.features
  pure (createSuccessResult K ⟨withArea⟩)

/-- The minimum-distance fold of the `distance` case
(`minDist` starts at `Infinity`, modelled by `none`). -/
def minDistTo (K : GeoKernel) (c : PFeature) (targets : List PFeature) :
    Except String (Option ℚ) :=
  targets.foldlM (fun (acc : Option ℚ) target => do
    let tc ← K.centroid target
    let dist ← K.distance c tc
    pure (match acc with
          | none => some dist
          | some m => if dist < m then some dist else some m)) none

/-- The `distance` case of the switch. -/
def opDistance (K : GeoKernel) (input : FCol) (config : OpConfig)
    (secondaryInput : Option FCol) : Except String ProcessingResult :=
  match secondaryInput with
  | none => pure (mkFailure "Distance calculation requires target points")
  | some sec => do
    let units := jsOrS config.units "kilometers"
    let withDistance ← mapME (fun f => do
      let c ← K.centroid f
      let minDist ← minDistTo K c sec.features
      let dval := match minDist with
                  | none => PValue.null
                  | some q => PValue.num q
      let props := mergeProps f.properties
        [("distance", dval), ("distance_units", PValue.str units)]
      pure { f with properties := props })
      input.features
    pure (createSuccessResult K ⟨withDistance⟩)

/-- The per-feature predicate of the `filter` case: an evaluation error
keeps the feature. -/
def filterPred (K : GeoKernel) (expression : String) (f : PFeature) : Bool :=
  match K.evalExpr expression f.properties with
  | Except.ok b => b
  | Except.error _ => true

/-- The `filter` case of the switch. -/
def opFilter (K : GeoKernel) (input : FCol) (config : OpConfig) :
    Except String ProcessingResult :=
  if !jsTruthyStr config.expression then
    pure (createSuccessResult K input)
  else
    pure (createSuccessResult K
      ⟨input.features.filter (filterPred K (jsOrS config.expression ""))⟩)

/-- The `smooth` case of the switch. -/
def opSmooth (K : GeoKernel) (input : FCol) (config : OpConfig) :
    Except String ProcessingResult :=
  let iterations := jsOrQ config.iterations 3
  let smoothed := input.features.map (fun f =>
    match K.polygonSmooth f iterations with
    | Except.ok fs => fs.headD f
    | Except.error _ => f)
  pure (createSuccessResult K ⟨smoothed⟩)

/-- The `makeValid` case of the switch. -/
def opMakeValid (K : GeoKernel) (input : FCol) : Except String ProcessingResult :=
  let cleaned := input.features.map (fun f =>
    match K.rewind f with
    | Except.ok r => r
    | Except.error _ => f)
  pure (createSuccessResult K ⟨cleaned⟩)

/-- Body of the `try` block of `processOperation`: the switch over the
operation name, one named definition per case. A thrown exception is an
`Except.error`. -/
def processOperationE (K : GeoKernel) (operation : String) (input : FCol)
    (config : OpConfig) (secondaryInput : Option FCol) :
    Except String ProcessingResult :=
  if operation = "buffer" then opBuffer K input config
  else if operation = "simplify" then opSimplify K input config
  else if operation = "centroid" then opCentroid K input
  else if operation = "bbox" then opBbox K input
  else if operation = "dissolve" then opDissolve K input config
  else if operation = "intersect" then opIntersect K input secondaryInput
  else if operation = "union" then opUnion K input secondaryInput
  else if operation = "clip" then opClip K input secondaryInput
  else if operation = "area" then opArea K input config
  else if operation = "distance" then opDistance K input config secondaryInput
  else if operation = "filter" then opFilter K input config
  else if operation = "smooth" then opSmooth K input config
  else if operation = "makeValid" then opMakeValid K input
  else if operation = "reproject" then pure (createSuccessResult K input)
  else pure (mkFailure ("Unknown operation: " ++ operation))

/-- `processOperation` of geoProcessing.ts: the switch wrapped in the
outer try/catch converting any thrown exception into a failure result. -/
def processOperation (K : GeoKernel) (operation : String) (input : FCol)
    (config : OpConfig) (secondaryInput : Option FCol) : ProcessingResult :=
  match processOperationE K operation input config secondaryInput with
  | Except.ok r => r
  | Except.error msg => mkFailure msg

/-! ## Concrete collaborators used to evaluate the development on closed
inputs. `trivKernel` is a total kernel with trivial geometry; variants
override single fields. -/

def trivKernel : GeoKernel where
  buffer := fun f _ _ => Except.ok (some f)
  simplify := fun f _ _ => Except.ok f
  centroid := fun f => Except.ok f
  bboxOf := fun f => Except.ok f
  dissolve := fun fs _ => Except.ok fs
  unionAll := fun _ => Except.ok none
  intersectPair := fun f _ => Except.ok (some f)
  area := fun _ => Except.ok 2000000
  distance := fun _ _ => Except.ok 1
  evalExpr := fun _ _ => Except.ok true
  polygonSmooth := fun f _ => Except.ok [f]
  rewind := fun f => Except.ok f
  bboxFC := fun _ => (0, 0, 0, 0)
  fetchUrl := fun _ => Except.error "network unavailable"
  runScript := fun _ _ => Except.ok none

/-- A point feature (not a polygon). -/
def ptFeature : PFeature :=
  ⟨some ⟨"Point", [[(1, 2)]]⟩, [("name", PValue.str "p")]⟩

/-- A polygon feature. -/
def polyFeature : PFeature :=
  ⟨some ⟨"Polygon", [[(0, 0), (0, 1), (1, 1), (0, 0)]]⟩, [("grp", PValue.str "g1")]⟩

/-- A kernel whose area computation throws. -/
def kernelAreaThrows : GeoKernel :=
  { trivKernel with area := fun _ => Except.error "boom" }

/-- A kernel whose expression evaluator always throws (malformed expression). -/
def kernelEvalThrows : GeoKernel :=
  { trivKernel with evalExpr := fun _ _ => Except.error "SyntaxError" }

/-- A kernel whose buffer computation throws. -/
def kernelBufferThrows : GeoKernel :=
  { trivKernel with buffer := fun _ _ _ => Except.error "Invalid geometry" }

/-! ## Intersect scenario fixtures -/

def featA : PFeature :=
  ⟨some ⟨"Polygon", [[(0, 0), (2, 0), (2, 2), (0, 0)]]⟩,
   [("name", PValue.str "A"), ("shared", PValue.str "primary")]⟩

def featB : PFeature :=
  ⟨some ⟨"Polygon", [[(5, 5), (7, 5), (7, 7), (5, 5)]]⟩,
   [("name", PValue.str "B"), ("shared", PValue.str "primary")]⟩

def featC : PFeature :=
  ⟨some ⟨"Polygon", [[(6, 6), (8, 6), (8, 8), (6, 6)]]⟩,
   [("tag", PValue.str "C"), ("shared", PValue.str "secondary")]⟩

/-- The geometric intersection of B and C (bare geometry, no properties). -/
def featBC : PFeature :=
  ⟨some ⟨"Polygon", [[(6, 6), (7, 6), (7, 7), (6, 6)]]⟩, []⟩

/-- A kernel on which only the pair (B, C) intersects non-emptily. -/
def scenarioIntersectKernel : GeoKernel :=
  { trivKernel with intersectPair := fun f1 f2 =>
      if f1 = featB ∧ f2 = featC then Except.ok (some featBC) else Except.ok none }

/-- Result of one intersection attempt of the `intersect` case: `none` when
the pair does not intersect or the computation throws (the inner catch
skips it), otherwise the intersection carrying the merged properties. -/
def gpair (K : GeoKernel) (f1 f2 : PFeature) : Option PFeature :=
  match K.intersectPair f1 f2 with
  | Except.ok (some inter) =>
      some { inter with properties := mergeProps f1.properties f2.properties }
  | Except.ok none => none
  | Except.error _ => none

/-- Push an optional result onto the accumulator (shape of both inner
loops of the `intersect` case). -/
def pushStep {α β : Type} (g : α → Option β) (acc : List β) (x : α) : List β :=
  match g x with
  | some b => acc ++ [b]
  | none => acc

/-- The JS accumulation step `if (dist < minDist) minDist = dist` with
`minDist` starting at `Infinity` (modelled by `none`). -/
def jsMinStep (acc : Option ℚ) (q : ℚ) : Option ℚ :=
  match acc with
  | none => some q
  | some m => if q < m then some q else some m

/-! ## Execution engine (WorkflowCanvas.tsx, handleRunNode / handleUpdateData)

Node and store state as held in the React component: the node list (with
per-node status, error and preview) and the `nodeDataStore` object. The
UI-only fields (position, label, icon, ...) are omitted; the store is an
association map with JS-object semantics (the key's entry is replaced in
place on re-assignment, appended otherwise). -/

structure Preview where
  ptype : String
  featureCount : Option Nat
  geometryType : Option String
  crs : Option String
deriving DecidableEq, Repr

structure WNode where
  id : String
  config : OpConfig
  status : String
  error : Option String
  preview : Option Preview
deriving DecidableEq, Repr

structure EngineState where
  nodes : List WNode
  store : List (String × FCol)
deriving DecidableEq, Repr

def lookupStore (store : List (String × FCol)) (nodeId : String) : Option FCol :=
  (store.find? (fun p => p.1 == nodeId)).map (fun p => p.2)

/-- JS `\x7b ...prev, [nodeId]: data \x7d`: replace the entry in place, append
when absent. -/
def insertStore (store : List (String × FCol)) (nodeId : String) (fc : FCol) :
    List (String × FCol) :=
  if store.any (fun p => p.1 == nodeId) then
    store.map (fun p => if p.1 == nodeId then (nodeId, fc) else p)
  else
    store ++ [(nodeId, fc)]

/-- The `setNodes(nds => nds.map(n => n.id === nodeId ? ... : n))` pattern. -/
def mapNode (nodes : List WNode) (nodeId : String) (g : WNode → WNode) :
    List WNode :=
  nodes.map (fun n => if n.id == nodeId then g n else n)

/-- Entering the running state clears any previous error. -/
def setRunning (st : EngineState) (nodeId : String) : EngineState :=
  { st with nodes := (mapNode st.nodes nodeId
      (fun n => { n with status := "running", error := none })) }

def setSuccessStatus (st : EngineState) (nodeId : String) : EngineState :=
  { st with nodes := (mapNode st.nodes nodeId
      (fun n => { n with status := "success" })) }

def setErrorState (st : EngineState) (nodeId msg : String) : EngineState :=
  { st with nodes := (mapNode st.nodes nodeId
      (fun n => { n with status := "error", error := some msg })) }

/-- `handleUpdateData`: store the data (a whole-entry replacement) and mark
the node successful with a preview summary. -/
def handleUpdateData (st : EngineState) (nodeId : String) (data : FCol)
    (stats : Option Stats) : EngineState :=
  { nodes := mapNode st.nodes nodeId (fun n =>
      { n with status := "success",
               preview := some
                 { ptype := "geojson"
                   featureCount := stats.map (fun s => s.featureCount)
                   geometryType := stats.map (fun s => s.geometryType)
                   crs := some "EPSG:4326" } })
    store := insertStore st.store nodeId data }

/-- `node.id.split('-')[0]`: the prefix of the id before the first dash
(the whole id when it has no dash). -/
def actualType (nodeId : String) : String :=
  String.mk (nodeId.toList.takeWhile (fun c => c ≠ '-'))

/-- First incoming edge's source looked up in the store (`getInputData`). -/
def getInputData (edges : List WEdge) (store : List (String × FCol))
    (nodeId : String) : Option FCol :=
  match edges.filter (fun e => e.target == nodeId) with
  | [] => none
  | e :: _ => lookupStore store e.source

/-- Second incoming edge's source looked up in the store
(`getSecondaryInput`). -/
def getSecondaryInput (edges : List WEdge) (store : List (String × FCol))
    (nodeId : String) : Option FCol :=
  match edges.filter (fun e => e.target == nodeId) with
  | _ :: e2 :: _ => lookupStore store e2.source
  | _ => none

/-- `fc.features[0]?.geometry?.type || 'Unknown'`. -/
def headGeomType (fc : FCol) : String :=
  jsOrS (match fc.features with
         | [] => none
         | f :: _ => f.geometry.map (fun g => g.gtype)) "Unknown"

/-- `executeCustomCode` of geoProcessing.ts. The script execution itself
(`new Function`) is the `runScript` collaborator: `some fc` stands for a
return value already normalized to a collection (a FeatureCollection or a
bare feature array), `none` for any other return value. -/
def executeCustomCode (K : GeoKernel) (code : String) (language : String)
    (input : FCol) : ProcessingResult :=
  if language = "javascript" then
    match K.runScript code input with
    | Except.error msg => mkFailure msg
    | Except.ok (some fc) => createSuccessResult K fc
    | Except.ok none =>
        mkFailure "Custom code must return a FeatureCollection or array of features"
  else
    mkFailure "Python-like syntax is experimental. Please use JavaScript for now."

/-- Tail of `handleRunNode`'s try block, shared by the custom-code and
processing branches: `if (result.success && result.data)` update the store
and the node, else throw the result's error. -/
def finishRun (st : EngineState) (nodeId : String) (result : ProcessingResult) :
    Except String EngineState :=
  if result.success then
    match result.data with
    | some d => Except.ok (handleUpdateData st nodeId d result.stats)
    | none => Except.error (result.error.getD "Processing failed")
  else
    Except.error (result.error.getD "Processing failed")

/-- The try block of `handleRunNode`, dispatching on the node type
extracted from the id. A thrown exception is an `Except.error`. -/
def runNodeTry (K : GeoKernel) (edges : List WEdge) (st : EngineState)
    (nodeId t : String) (config : OpConfig) : Except String EngineState :=
  if t = "fileInput" then
    if (lookupStore st.store nodeId).isSome then
      Except.ok (setSuccessStatus st nodeId)
    else
      Except.ok (setErrorState st nodeId "No file uploaded")
  else if t = "urlInput" then
    if !jsTruthyStr config.url then
      Except.error "Please enter a URL"
    else
      match K.fetchUrl (jsOrS config.url "") with
      | Except.error msg => Except.error msg
      | Except.ok fc =>
          Except.ok (handleUpdateData st nodeId fc (some
            { featureCount := fc.features.length
              geometryType := headGeomType fc
              bbox := none
              properties := [] }))
  else if t = "fileOutput" then
    match getInputData edges st.store nodeId with
    | none => Except.error "No input data connected"
    | some _ =>
        Except.ok (setSuccessStatus st nodeId)
  else if t = "preview" then
    match getInputData edges st.store nodeId with
    | none => Except.error "No input data connected"
    | some d =>
        Except.ok
          { nodes := mapNode st.nodes nodeId (fun n =>
              { n with status := "success",
                       preview := some
                         { ptype := "geojson"
                           featureCount := some d.features.length
                           geometryType :=
                             (match d.features with
                              | [] => none
                              | f :: _ => f.geometry.map (fun g => g.gtype))
                           crs := none } })
            store := insertStore st.store nodeId d }
  else if t = "customCode" then
    match getInputData edges st.store nodeId with
    | none => Except.error "No input data connected"
    | some input =>
        finishRun st nodeId
          (executeCustomCode K (config.code.getD "")
            (jsOrS config.language "javascript") input)
  else
    match getInputData edges st.store nodeId with
    | none => Except.error "No input data connected. Connect an input node first."
    | some input =>
        finishRun st nodeId
          (processOperation K t input config (getSecondaryInput edges st.store nodeId))

/-- `handleRunNode`: find the node, enter the running state, run the try
block, and on a thrown error enter the error state with the message. -/
def runNode (K : GeoKernel) (edges : List WEdge) (st : EngineState)
    (nodeId : String) : EngineState :=
  match st.nodes.find? (fun n => n.id == nodeId) with
  | none => st
  | some node =>
    let stR := setRunning st nodeId
    match runNodeTry K edges stR nodeId (actualType nodeId) node.config with
    | Except.ok st' => st'
    | Except.error msg => setErrorState stR nodeId msg

def statusOf (st : EngineState) (nodeId : String) : Option String :=
  (st.nodes.find? (fun n => n.id == nodeId)).map (fun n => n.status)

def errorOf (st : EngineState) (nodeId : String) : Option String :=
  (st.nodes.find? (fun n => n.id == nodeId)).bind (fun n => n.error)

/-- Engine fixtures: one processing node fed by a stored upstream result. -/
def node3 : WNode := ⟨"buffer-1", {}, "idle", none, none⟩

def st3 : EngineState := ⟨[node3], [("src-1", ⟨[ptFeature]⟩)]⟩

def edges3 : List WEdge := [⟨"src-1", "buffer-1"⟩]

/-! ## Lemmas and claim theorems -/

lemma mem_deps_iff {edges : List WEdge} {d n : String} :
    d ∈ deps edges n ↔ DStep edges d n := by
  unfold deps DStep
  simp only [List.mem_map, List.mem_filter]
  constructor
  · rintro ⟨e, ⟨he, ht⟩, hs⟩
    exact ⟨e, he, hs, by simpa using ht⟩
  · rintro ⟨e, he, hs, ht⟩
    exact ⟨e, ⟨he, by simpa using ht⟩, hs⟩

lemma unvisited_mono {U vis vis' : List String}
    (h : ∀ x ∈ vis, x ∈ vis') : unvisited U vis' ≤ unvisited U vis := by
  induction U with
  | nil => simp [unvisited]
  | cons a U ih =>
    unfold unvisited at ih ⊢
    by_cases ha' : a ∈ vis'
    · by_cases hb : a ∈ vis
      · simp only [List.filter_cons, ha', hb, not_true_eq_false, decide_False, Bool.false_eq_true, if_false, Bool.false_eq_true, if_false]
        exact ih
      · simp only [List.filter_cons, ha', hb, not_true_eq_false,
          not_false_eq_true, decide_False, Bool.false_eq_true, if_false, decide_True, if_true,
          List.length_cons]
        omega
    · have hb : a ∉ vis := fun hmem => ha' (h a hmem)
      simp only [List.filter_cons, ha', hb, not_false_eq_true, decide_True,
        if_true, List.length_cons]
      simpa using ih

lemma unvisited_cons_lt {U vis : List String} {n : String}
    (hU : n ∈ U) (hvis : n ∉ vis) : unvisited U (n :: vis) < unvisited U vis := by
  induction U with
  | nil => simp at hU
  | cons a U ih =>
    unfold unvisited
    by_cases han : a = n
    · subst han
      have h1 : a ∈ a :: vis := List.mem_cons_self a vis
      simp only [List.filter_cons, h1, hvis, not_true_eq_false,
        not_false_eq_true, decide_False, Bool.false_eq_true, if_false, decide_True, if_true,
        List.length_cons]
      have := @unvisited_mono U vis (a :: vis)
        (fun x hx => List.mem_cons_of_mem a hx)
      unfold unvisited at this
      omega
    · have hU' : n ∈ U := by
        rcases List.mem_cons.mp hU with h | h
        · exact absurd h.symm han
        · exact h
      have hlt := ih hU'
      unfold unvisited at hlt
      by_cases hb : a ∈ vis
      · have h1 : a ∈ n :: vis := List.mem_cons_of_mem n hb
        simp only [List.filter_cons, h1, hb, not_true_eq_false, decide_False,
          Bool.false_eq_true, if_false]
        exact hlt
      · have h1 : a ∉ n :: vis := by
          simp only [List.mem_cons]
          rintro (h | h)
          · exact han h
          · exact hb h
        simp only [List.filter_cons, h1, hb, not_false_eq_true, decide_True,
          if_true, List.length_cons]
        simpa using hlt

lemma unvisited_le_length (U vis : List String) : unvisited U vis ≤ U.length :=
  List.length_filter_le _ U

lemma topoSorted_nil (edges : List WEdge) : TopoSorted edges [] := by
  intro m hm
  simp at hm

lemma topoSorted_append {edges : List WEdge} {ord : List String} {n : String}
    (h : TopoSorted edges ord) (hn : n ∉ ord)
    (hdeps : ∀ d, DStep edges d n → d ∈ ord) :
    TopoSorted edges (ord ++ [n]) := by
  intro m hm d hd
  rcases List.mem_append.mp hm with hmo | hmn
  · obtain ⟨hdo, hidx⟩ := h m hmo d hd
    refine ⟨List.mem_append.mpr (Or.inl hdo), ?_⟩
    rw [List.indexOf_append_of_mem hdo, List.indexOf_append_of_mem hmo]
    exact hidx
  · have hmn' : m = n := by simpa using hmn
    subst hmn'
    have hdo := hdeps d hd
    refine ⟨List.mem_append.mpr (Or.inl hdo), ?_⟩
    rw [List.indexOf_append_of_mem hdo, List.indexOf_append_of_not_mem hn]
    have h1 : ord.indexOf d < ord.length := List.indexOf_lt_length.mpr hdo
    have h2 : List.indexOf m (ord ++ [m]) = ord.length + List.indexOf m [m] :=
      List.indexOf_append_of_not_mem hn
    simp only [List.indexOf_cons_self] at h2
    omega

lemma topoSorted_reaches {edges : List WEdge} {ord : List String}
    (h : TopoSorted edges ord) :
    ∀ s t, Reaches edges s t → t ∈ ord →
      s ∈ ord ∧ ord.indexOf s < ord.indexOf t := by
  intro s t hr
  induction hr with
  | single hstep =>
    intro ht
    exact h _ ht _ hstep
  | tail _ hstep ih =>
    intro hc
    obtain ⟨hb, hlt1⟩ := h _ hc _ hstep
    obtain ⟨hs, hlt2⟩ := ih hb
    exact ⟨hs, lt_trans hlt2 hlt1⟩

/-- If some rank function strictly increases along every edge, the graph is
acyclic (used to discharge acyclicity at concrete inputs). -/
lemma acyclic_of_rank {edges : List WEdge} (f : String → Nat)
    (hf : ∀ a b, DStep edges a b → f a < f b) : Acyclic edges := by
  intro n hn
  have key : ∀ a b, Reaches edges a b → f a < f b := by
    intro a b hr
    induction hr with
    | single hstep => exact hf _ _ hstep
    | tail _ hstep ih => exact lt_trans ih (hf _ _ hstep)
  exact absurd (key n n hn) (lt_irrefl _)

lemma visitFold_spec (edges : List WEdge) (U gray : List String) (fuel : Nat)
    (hvisit : ∀ n st, VisitPre edges gray st → unvisited U st.1 + 1 ≤ fuel →
      n ∈ U → (∀ g ∈ gray, Relation.ReflTransGen (DStep edges) n g) →
      VisitOut edges U gray n st (visitF edges fuel n st)) :
    ∀ ds st, VisitPre edges gray st →
      (∀ d ∈ ds, d ∈ U) →
      (∀ d ∈ ds, ∀ g ∈ gray, Relation.ReflTransGen (DStep edges) d g) →
      unvisited U st.1 + 1 ≤ fuel →
      FoldOut edges U gray ds st
        (ds.foldl (fun s d => visitF edges fuel d s) st) := by
  intro ds
  induction ds with
  | nil =>
    intro st hpre hUd hstar hfuel
    exact ⟨⟨[], by simp⟩, hpre, by simp, fun x hx => hx, fun x hx => Or.inl hx⟩
  | cons d ds ih =>
    intro st hpre hUd hstar hfuel
    have hd := hvisit d st hpre hfuel (hUd d (List.mem_cons_self d ds))
      (hstar d (List.mem_cons_self d ds))
    obtain ⟨⟨l₁, hl₁⟩, hpre₁, hdmem, hmono₁, hsub₁⟩ := hd
    have hfuel₁ : unvisited U (visitF edges fuel d st).1 + 1 ≤ fuel := by
      have := @unvisited_mono U _ _ hmono₁
      omega
    have hrest := ih (visitF edges fuel d st) hpre₁
      (fun d' h => hUd d' (List.mem_cons_of_mem d h))
      (fun d' h => hstar d' (List.mem_cons_of_mem d h)) hfuel₁
    obtain ⟨⟨l₂, hl₂⟩, hpre₂, hds₂, hmono₂, hsub₂⟩ := hrest
    rw [List.foldl_cons]
    refine ⟨⟨l₁ ++ l₂, ?_⟩, hpre₂, ?_, ?_, ?_⟩
    · rw [hl₂, hl₁, List.append_assoc]
    · intro d' hd'
      rcases List.mem_cons.mp hd' with h | h
      · subst h
        exact hmono₂ _ hdmem
      · exact hds₂ _ h
    · intro x hx
      exact hmono₂ _ (hmono₁ _ hx)
    · intro x hx
      rcases hsub₂ x hx with h | h
      · rcases hsub₁ x h with h' | h'
        · exact Or.inl h'
        · exact Or.inr h'
      · exact Or.inr h

lemma visitF_spec (edges : List WEdge) (U : List String)
    (hU : ∀ e ∈ edges, e.source ∈ U) (acyc : Acyclic edges) :
    ∀ fuel n st gray, VisitPre edges gray st →
      unvisited U st.1 + 1 ≤ fuel → n ∈ U →
      (∀ g ∈ gray, Relation.ReflTransGen (DStep edges) n g) →
      VisitOut edges U gray n st (visitF edges fuel n st) := by
  intro fuel
  induction fuel with
  | zero =>
    intro n st gray _ hfuel
    omega
  | succ fuel ih =>
    intro n st gray hpre hfuel hnU hstar
    obtain ⟨hiff, hnodup, hgray, htopo⟩ := hpre
    by_cases hvis : n ∈ st.1
    · have hred : visitF edges (fuel + 1) n st = st := by
        rw [visitF, if_pos hvis]
      rw [hred]
      exact ⟨⟨[], by simp⟩, ⟨hiff, hnodup, hgray, htopo⟩, hvis,
        fun x hx => hx, fun x hx => Or.inl hx⟩
    · have hn_not_ord : n ∉ st.2 := fun h => hvis ((hiff n).mpr (Or.inl h))
      have hn_not_gray : n ∉ gray := fun h => hvis ((hiff n).mpr (Or.inr h))
      have hpre₀ : VisitPre edges (n :: gray) (n :: st.1, st.2) := by
        refine ⟨?_, hnodup, ?_, htopo⟩
        · intro x
          simp only [List.mem_cons]
          constructor
          · rintro (h | h)
            · exact Or.inr (Or.inl h)
            · rcases (hiff x).mp h with h' | h'
              · exact Or.inl h'
              · exact Or.inr (Or.inr h')
          · rintro (h | h | h)
            · exact Or.inr ((hiff x).mpr (Or.inl h))
            · exact Or.inl h
            · exact Or.inr ((hiff x).mpr (Or.inr h))
        · intro g hg
          rcases List.mem_cons.mp hg with h | h
          · subst h
            exact hn_not_ord
          · exact hgray g h
      have hfuel₀ : unvisited U (n :: st.1) + 1 ≤ fuel := by
        have := unvisited_cons_lt hnU hvis
        omega
      have hdU : ∀ d ∈ deps edges n, d ∈ U := by
        intro d hd
        obtain ⟨e, he, hs, ht⟩ := mem_deps_iff.mp hd
        subst hs
        exact hU e he
      have hdstar : ∀ d ∈ deps edges n, ∀ g ∈ n :: gray,
          Relation.ReflTransGen (DStep edges) d g := by
        intro d hd g hg
        have hstep : DStep edges d n := mem_deps_iff.mp hd
        rcases List.mem_cons.mp hg with h | h
        · subst h
          exact Relation.ReflTransGen.single hstep
        · exact (Relation.ReflTransGen.single hstep).trans (hstar g h)
      have hfold := visitFold_spec edges U (n :: gray) fuel
        (fun n' st' hpre' hfuel' hn' hstar' => ih n' st' (n :: gray) hpre' hfuel' hn' hstar')
        (deps edges n) (n :: st.1, st.2) hpre₀ hdU hdstar hfuel₀
      set st₁ := (deps edges n).foldl (fun s d => visitF edges fuel d s)
        (n :: st.1, st.2) with hst₁def
      obtain ⟨⟨l₁, hl₁⟩, ⟨hiff₁, hnodup₁, hgray₁, htopo₁⟩, hds₁, hmono₁, hsub₁⟩ := hfold
      have hkey : ∀ d, DStep edges d n → d ∈ st₁.2 := by
        intro d hstep
        have hd : d ∈ deps edges n := mem_deps_iff.mpr hstep
        have hdvis : d ∈ st₁.1 := hds₁ d hd
        rcases (hiff₁ d).mp hdvis with h | h
        · exact h
        · rcases List.mem_cons.mp h with h' | h'
          · subst h'
            exact absurd (Relation.TransGen.single hstep) (acyc d)
          · have hcyc : Reaches edges d d :=
              Relation.TransGen.trans_left (Relation.TransGen.single hstep) (hstar d h')
            exact absurd hcyc (acyc d)
      have hn₁ : n ∉ st₁.2 := hgray₁ n (List.mem_cons_self n gray)
      have hred : visitF edges (fuel + 1) n st = (st₁.1, st₁.2 ++ [n]) := by
        rw [visitF, if_neg hvis, hst₁def]
      rw [hred]
      refine ⟨⟨l₁ ++ [n], ?_⟩, ⟨?_, ?_, ?_, ?_⟩, ?_, ?_, ?_⟩
      · have hl₁' : st₁.2 = st.2 ++ l₁ := hl₁
        rw [hl₁']
        simp [List.append_assoc]
      · intro x
        constructor
        · intro hx
          rcases (hiff₁ x).mp hx with h | h
          · exact Or.inl (List.mem_append.mpr (Or.inl h))
          · rcases List.mem_cons.mp h with h' | h'
            · subst h'
              exact Or.inl (List.mem_append.mpr (Or.inr (List.mem_singleton.mpr rfl)))
            · exact Or.inr h'
        · intro hx
          rcases hx with h | h
          · rcases List.mem_append.mp h with h' | h'
            · exact (hiff₁ x).mpr (Or.inl h')
            · have hxn : x = n := List.mem_singleton.mp h'
              subst hxn
              exact hmono₁ x (List.mem_cons_self x st.1)
          · exact (hiff₁ x).mpr (Or.inr (List.mem_cons_of_mem n h))
      · refine hnodup₁.append (List.nodup_singleton n) ?_
        intro a ha hb
        have : a = n := List.mem_singleton.mp hb
        subst this
        exact hn₁ ha
      · intro g hg
        intro hmem
        rcases List.mem_append.mp hmem with h | h
        · exact hgray₁ g (List.mem_cons_of_mem n hg) h
        · have : g = n := List.mem_singleton.mp h
          subst this
          exact hn_not_gray hg
      · exact topoSorted_append htopo₁ hn₁ hkey
      · exact hmono₁ n (List.mem_cons_self n st.1)
      · intro x hx
        exact hmono₁ x (List.mem_cons_of_mem n hx)
      · intro x hx
        rcases hsub₁ x hx with h | h
        · rcases List.mem_cons.mp h with h' | h'
          · subst h'
            exact Or.inr hnU
          · exact Or.inl h'
        · exact Or.inr h

lemma executionOrder_spec (nodes : List String) (edges : List WEdge)
    (hsrc : ∀ e ∈ edges, e.source ∈ nodes) (acyc : Acyclic edges) :
    (executionOrder nodes edges).Nodup ∧
    (∀ x, x ∈ executionOrder nodes edges ↔ x ∈ nodes) ∧
    TopoSorted edges (executionOrder nodes edges) := by
  have hU : ∀ e ∈ edges, e.source ∈ resolverUniverse nodes edges := by
    intro e he
    exact List.mem_append.mpr (Or.inr (List.mem_map.mpr ⟨e, he, rfl⟩))
  have hUlen : (resolverUniverse nodes edges).length = nodes.length + edges.length := by
    simp [resolverUniverse]
  have hpre0 : VisitPre edges [] (([], []) : VState) := by
    refine ⟨?_, List.nodup_nil, ?_, topoSorted_nil edges⟩
    · intro x
      simp
    · intro g hg
      simp at hg
  have hfuel0 : unvisited (resolverUniverse nodes edges) ([] : List String) + 1 ≤
      nodes.length + edges.length + 1 := by
    have h1 := unvisited_le_length (resolverUniverse nodes edges) []
    omega
  have hfold := visitFold_spec edges (resolverUniverse nodes edges) []
    (nodes.length + edges.length + 1)
    (fun n st hpre hfuel hn hstar =>
      visitF_spec edges (resolverUniverse nodes edges) hU acyc _ n st [] hpre hfuel hn hstar)
    nodes ([], []) hpre0
    (fun d h => List.mem_append.mpr (Or.inl h))
    (fun d _ g hg => absurd hg (List.not_mem_nil g))
    hfuel0
  obtain ⟨⟨l, hl⟩, ⟨hiff, hnodup, _, htopo⟩, hds, _, hsub⟩ := hfold
  have hmem : ∀ x, x ∈ executionOrder nodes edges ↔ x ∈ nodes := by
    intro x
    constructor
    · intro hx
      have hx1 : x ∈ (nodes.foldl (fun s d =>
          visitF edges (nodes.length + edges.length + 1) d s) ([], [])).1 :=
        (hiff x).mpr (Or.inl hx)
      rcases hsub x hx1 with h | h
      · simp at h
      · rcases List.mem_append.mp h with h' | h'
        · exact h'
        · obtain ⟨e, he, hsx⟩ := List.mem_map.mp h'
          subst hsx
          exact hsrc e he
    · intro hx
      have hx1 := hds x hx
      rcases (hiff x).mp hx1 with h | h
      · exact h
      · simp at h
  exact ⟨hnodup, hmem, htopo⟩

/-- C2: for an acyclic graph whose edges connect existing nodes, the
execution order computed by handleRunWorkflow contains every node exactly
once, and every node comes strictly after each of its transitive
dependencies. -/
theorem resolver_order_correct (nodes : List String) (edges : List WEdge)
    (hinv : ∀ e ∈ edges, e.source ∈ nodes ∧ e.target ∈ nodes)
    (acyc : Acyclic edges) :
    (executionOrder nodes edges).Nodup ∧
    (∀ x, x ∈ executionOrder nodes edges ↔ x ∈ nodes) ∧
    (∀ s t, Reaches edges s t → t ∈ executionOrder nodes edges →
      s ∈ executionOrder nodes edges ∧
      (executionOrder nodes edges).indexOf s <
        (executionOrder nodes edges).indexOf t) := by
  obtain ⟨h1, h2, h3⟩ := executionOrder_spec nodes edges
    (fun e he => (hinv e he).1) acyc
  exact ⟨h1, h2, fun s t hr ht => topoSorted_reaches h3 s t hr ht⟩

/-- Witness for C2: on the concrete acyclic chain a → b → c the resolver
produces exactly the order a, b, c. -/
theorem resolver_order_correct_witness :
    (executionOrder ["a", "b", "c"] [⟨"a", "b"⟩, ⟨"b", "c"⟩]).Nodup ∧
    executionOrder ["a", "b", "c"] [⟨"a", "b"⟩, ⟨"b", "c"⟩] = ["a", "b", "c"] := by
  have hacyc : Acyclic [⟨"a", "b"⟩, ⟨"b", "c"⟩] := by
    apply acyclic_of_rank (fun s => if s = "a" then 0 else if s = "b" then 1 else 2)
    intro a b hstep
    obtain ⟨e, he, hs, ht⟩ := hstep
    subst hs
    subst ht
    rcases List.mem_cons.mp he with h | h
    · subst h
      decide
    · have he2 : e = ⟨"b", "c"⟩ := List.mem_singleton.mp h
      subst he2
      decide
  refine ⟨(resolver_order_correct _ _ ?_ hacyc).1, by decide⟩
  decide

/-- C1: the resolver of handleRunWorkflow performs no cycle detection.
On the two-node cycle a ⇄ b it terminates (the visited set stops the
recursion) and silently returns the complete order [b, a] instead of
failing: no CyclicGraphError exists anywhere in the code. -/
theorem resolver_ignores_cycle :
    Reaches [⟨"a", "b"⟩, ⟨"b", "a"⟩] "a" "a" ∧
    executionOrder ["a", "b"] [⟨"a", "b"⟩, ⟨"b", "a"⟩] = ["b", "a"] := by
  constructor
  · exact Relation.TransGen.tail
      (Relation.TransGen.single ⟨⟨"a", "b"⟩, by simp, rfl, rfl⟩)
      ⟨⟨"b", "a"⟩, by simp, rfl, rfl⟩
  · decide

/-! ## Helper lemmas about the embedded primitives -/

lemma mapME_eq_ok {α β : Type} (g : α → Except String β) (gf : α → β)
    (l : List α) (h : ∀ x ∈ l, g x = Except.ok (gf x)) :
    mapME g l = Except.ok (l.map gf) := by
  induction l with
  | nil => rfl
  | cons a l ih =>
    simp only [mapME, List.map_cons]
    rw [h a (List.mem_cons_self a l), ih (fun x hx => h x (List.mem_cons_of_mem a hx))]
    rfl

lemma find?_append_eq {α : Type} (p : α → Bool) (l₁ l₂ : List α) :
    (l₁ ++ l₂).find? p =
      match l₁.find? p with
      | some x => some x
      | none => l₂.find? p := by
  induction l₁ with
  | nil => simp
  | cons a l ih =>
    by_cases h : p a
    · simp [List.find?_cons, h]
    · have h' : p a = false := by simpa using h
      simp [List.find?_cons, h', ih]

/-- Spread-merge override: a key of the second (secondary) map wins, a key
present only in the first (primary) map survives. -/
lemma lookupProp_mergeProps (p1 p2 : PropMap) (k : String) :
    lookupProp (mergeProps p1 p2) k =
      match lookupProp p2 k with
      | some v => some v
      | none => lookupProp p1 k := by
  unfold lookupProp mergeProps
  rw [List.reverse_append, find?_append_eq]
  cases h : p2.reverse.find? (fun p => p.1 == k) <;> simp [h]

/-! ## Claim theorems for the operation dispatcher -/

/-- C10: `processOperation` is total. Its body is the `try` block
`processOperationE`; any exception thrown inside becomes a failure result
carrying the exception message, and an operation name outside the switch
falls through to a failure result naming the unknown operation. -/
theorem processOperation_total (K : GeoKernel) (operation : String)
    (input : FCol) (config : OpConfig) (secondaryInput : Option FCol) :
    (∀ msg, processOperationE K operation input config secondaryInput = Except.error msg →
      processOperation K operation input config secondaryInput = mkFailure msg) ∧
    (operation ∉ ["buffer", "simplify", "centroid", "bbox", "dissolve", "intersect",
        "union", "clip", "area", "distance", "filter", "smooth", "makeValid",
        "reproject"] →
      processOperation K operation input config secondaryInput =
        mkFailure ("Unknown operation: " ++ operation)) := by
  constructor
  · intro msg h
    unfold processOperation
    rw [h]
  · intro hop
    simp only [List.mem_cons, List.not_mem_nil, or_false, not_or] at hop
    obtain ⟨h1, h2, h3, h4, h5, h6, h7, h8, h9, h10, h11, h12, h13, h14⟩ := hop
    unfold processOperation processOperationE
    rw [if_neg h1, if_neg h2, if_neg h3, if_neg h4, if_neg h5, if_neg h6,
      if_neg h7, if_neg h8, if_neg h9, if_neg h10, if_neg h11, if_neg h12,
      if_neg h13, if_neg h14]
    rfl

/-- Witness for C10: a made-up operation name yields the descriptive
failure result, and a thrown turf exception surfaces as a failure result
with the exception's message. -/
theorem processOperation_total_witness :
    processOperation trivKernel "frobnicate" ⟨[]⟩ {} none =
      mkFailure "Unknown operation: frobnicate" ∧
    processOperation kernelAreaThrows "area" ⟨[ptFeature]⟩ {} none =
      mkFailure "boom" :=
  ⟨(processOperation_total trivKernel "frobnicate" ⟨[]⟩ {} none).2 (by decide),
   (processOperation_total kernelAreaThrows "area" ⟨[ptFeature]⟩ {} none).1 "boom" rfl⟩

/-- C9: in the `buffer` case both config reads go through JS `||`, so a
falsy configured distance (in particular 0) becomes the default 100 and a
falsy units value becomes "meters": the operation buffers with distance
100 in meters. -/
theorem buffer_falsy_distance_defaults (K : GeoKernel) (input : FCol)
    (config : OpConfig) (sec : Option FCol)
    (hdist : config.distance = none ∨ config.distance = some 0)
    (hunits : config.units = none ∨ config.units = some "") :
    processOperation K "buffer" input config sec =
      match mapME (fun f => K.buffer f 100 "meters") input.features with
      | Except.ok buffered => createSuccessResult K ⟨buffered.filterMap id⟩
      | Except.error msg => mkFailure msg := by
  have h1 : jsOrQ config.distance 100 = 100 := by
    rcases hdist with h | h <;> simp [h, jsOrQ]
  have h2 : jsOrS config.units "meters" = "meters" := by
    rcases hunits with h | h <;> simp [h, jsOrS]
  have hdisp : processOperationE K "buffer" input config sec = opBuffer K input config := rfl
  unfold processOperation
  rw [hdisp]
  cases hmap : mapME (fun f => K.buffer f 100 "meters") input.features with
  | ok buffered =>
      simp only [opBuffer, h1, h2, hmap]
      rfl
  | error msg =>
      simp only [opBuffer, h1, h2, hmap]
      rfl

/-- Witness for C9: an explicitly configured zero distance and empty units
string still buffer (here with the trivial kernel) as distance 100 in
meters: the run succeeds and keeps the feature. -/
theorem buffer_falsy_distance_defaults_witness :
    processOperation trivKernel "buffer" ⟨[ptFeature]⟩
      { distance := some 0, units := some "" } none =
      createSuccessResult trivKernel ⟨[ptFeature]⟩ := by
  have h := buffer_falsy_distance_defaults trivKernel ⟨[ptFeature]⟩
    { distance := some 0, units := some "" } none (Or.inr rfl) (Or.inr rfl)
  rw [h]
  rfl

/-- C8: with a non-empty expression the `filter` case keeps exactly the
features whose evaluation is truthy, keeps any feature whose evaluation
throws (malformed expression included), and the run as a whole still
succeeds. -/
theorem filter_keeps_truthy_and_errors (K : GeoKernel) (input : FCol)
    (config : OpConfig) (sec : Option FCol) (expr : String)
    (hexpr : config.expression = some expr) (hne : expr ≠ "") :
    processOperation K "filter" input config sec =
      createSuccessResult K ⟨input.features.filter (filterPred K expr)⟩ ∧
    (processOperation K "filter" input config sec).success = true ∧
    (∀ f b, K.evalExpr expr f.properties = Except.ok b → filterPred K expr f = b) ∧
    (∀ f msg, K.evalExpr expr f.properties = Except.error msg →
      filterPred K expr f = true) := by
  have htruthy : jsTruthyStr config.expression = true := by
    rw [hexpr]
    simpa [jsTruthyStr] using hne
  have hors : jsOrS config.expression "" = expr := by
    rw [hexpr]
    simp [jsOrS, hne]
  have hdisp : processOperationE K "filter" input config sec = opFilter K input config := rfl
  have hmain : processOperation K "filter" input config sec =
      createSuccessResult K ⟨input.features.filter (filterPred K expr)⟩ := by
    unfold processOperation
    rw [hdisp]
    unfold opFilter
    rw [htruthy, hors]
    rfl
  refine ⟨hmain, ?_, ?_, ?_⟩
  · rw [hmain]
    rfl
  · intro f b h
    unfold filterPred
    rw [h]
  · intro f msg h
    unfold filterPred
    rw [h]

/-- Witness for C8: with a kernel on which every evaluation throws (a
malformed expression), the feature is kept and the run succeeds. -/
theorem filter_keeps_truthy_and_errors_witness :
    processOperation kernelEvalThrows "filter" ⟨[ptFeature]⟩
      { expression := some "([bad" } none =
      createSuccessResult kernelEvalThrows ⟨[ptFeature]⟩ ∧
    filterPred kernelEvalThrows "([bad" ptFeature = true := by
  have h := filter_keeps_truthy_and_errors kernelEvalThrows ⟨[ptFeature]⟩
    { expression := some "([bad" } none "([bad" rfl (by decide)
  constructor
  · rw [h.1]
    rfl
  · exact h.2.2.2 ptFeature "SyntaxError" rfl

lemma foldl_append_filterMap {α β : Type} (g : α → Option β) (l : List α) :
    ∀ acc : List β,
      l.foldl (pushStep g) acc = acc ++ l.filterMap g := by
  induction l with
  | nil =>
    intro acc
    simp
  | cons a l ih =>
    intro acc
    cases h : g a with
    | none =>
      rw [List.foldl_cons, List.filterMap_cons, h]
      simpa [pushStep, h] using ih acc
    | some b =>
      rw [List.foldl_cons, List.filterMap_cons, h]
      have hps : pushStep g acc a = acc ++ [b] := by
        simp [pushStep, h]
      rw [hps, ih (acc ++ [b])]
      simp

lemma foldl_append_bind {α β : Type} (g : α → List β) (l : List α) :
    ∀ acc : List β, l.foldl (fun acc x => acc ++ g x) acc = acc ++ l.flatMap g := by
  induction l with
  | nil =>
    intro acc
    simp
  | cons a l ih =>
    intro acc
    rw [List.foldl_cons, ih (acc ++ g a)]
    simp

lemma intersectAll_eq (K : GeoKernel) (primary targets : List PFeature) :
    intersectAll K primary targets =
      primary.flatMap (fun f1 => targets.filterMap (gpair K f1)) := by
  unfold intersectAll
  have hstep : ∀ f1 : PFeature,
      (fun (acc : List PFeature) f2 =>
        match K.intersectPair f1 f2 with
        | Except.ok (some inter) =>
            acc ++ [{ inter with properties := mergeProps f1.properties f2.properties }]
        | Except.ok none => acc
        | Except.error _ => acc)
      = pushStep (gpair K f1) := by
    intro f1
    funext acc f2
    simp only [gpair, pushStep]
    cases h : K.intersectPair f1 f2 with
    | ok o => cases o <;> rfl
    | error e => rfl
  simp only [hstep]
  have hinner : (fun (acc : List PFeature) f1 =>
      List.foldl (pushStep (gpair K f1)) acc targets)
      = (fun (acc : List PFeature) f1 => acc ++ targets.filterMap (gpair K f1)) := by
    funext acc f1
    exact foldl_append_filterMap (gpair K f1) targets acc
  rw [hinner, foldl_append_bind]
  simp

/-- C4: the `intersect` case attempts the geometric intersection of every
(primary, secondary) pair in order, keeps exactly the non-empty results,
gives each kept result the merged property maps with the secondary
feature's values overriding the primary's on key collision, and on the
concrete scenario primary = [A, B], secondary = [C] with only B ∩ C
non-empty produces exactly one feature with properties merged from B then
C. -/
theorem intersect_pairwise_merge (K : GeoKernel) (input sec : FCol)
    (config : OpConfig) :
    (processOperation K "intersect" input config (some sec) =
      createSuccessResult K
        ⟨input.features.flatMap (fun f1 => sec.features.filterMap (gpair K f1))⟩) ∧
    (∀ f1 f2 inter, K.intersectPair f1 f2 = Except.ok (some inter) →
      gpair K f1 f2 =
        some { inter with properties := mergeProps f1.properties f2.properties }) ∧
    (∀ f1 f2, K.intersectPair f1 f2 = Except.ok none → gpair K f1 f2 = none) ∧
    (∀ p1 p2 k, lookupProp (mergeProps p1 p2) k =
      match lookupProp p2 k with
      | some v => some v
      | none => lookupProp p1 k) ∧
    (processOperation scenarioIntersectKernel "intersect" ⟨[featA, featB]⟩ {}
        (some ⟨[featC]⟩) =
      createSuccessResult scenarioIntersectKernel
        ⟨[{ featBC with properties := mergeProps featB.properties featC.properties }]⟩) ∧
    lookupProp (mergeProps featB.properties featC.properties) "shared" =
      some (PValue.str "secondary") ∧
    lookupProp (mergeProps featB.properties featC.properties) "name" =
      some (PValue.str "B") := by
  refine ⟨?_, ?_, ?_, lookupProp_mergeProps, by decide, by decide, by decide⟩
  · have hstep2 : processOperation K "intersect" input config (some sec) =
        createSuccessResult K ⟨intersectAll K input.features sec.features⟩ := rfl
    rw [hstep2, intersectAll_eq]
  · intro f1 f2 inter h
    unfold gpair
    rw [h]
  · intro f1 f2 h
    unfold gpair
    rw [h]

/-- C5 counterexample: dissolve with a set propertyName on an input with
no polygon feature at all returns the input unchanged, so the non-polygon
Point feature is present in the output rather than excluded. -/
theorem dissolve_no_polygon_keeps_nonpolygons :
    (processOperation trivKernel "dissolve" ⟨[ptFeature]⟩
        { propertyName := some "grp" } none).data = some ⟨[ptFeature]⟩ ∧
    isPolygonal ptFeature = false := by
  constructor
  · rfl
  · rfl

/-- C5 amended: with a non-empty propertyName, if the input has at least
one polygon feature the dissolve runs on the polygon-only subcollection
(non-polygon features are excluded); but if the input has no polygon
feature at all the input is returned unchanged, non-polygon features
included. -/
theorem dissolve_grouped_excludes_nonpolygons (K : GeoKernel) (input : FCol)
    (config : OpConfig) (sec : Option FCol) (pn : String)
    (hpn : config.propertyName = some pn) (hne : pn ≠ "") :
    (input.features.filter isPolygonal ≠ [] →
      processOperation K "dissolve" input config sec =
        match K.dissolve (input.features.filter isPolygonal) pn with
        | Except.ok dissolved => createSuccessResult K ⟨dissolved⟩
        | Except.error msg => mkFailure msg) ∧
    (input.features.filter isPolygonal = [] →
      processOperation K "dissolve" input config sec =
        createSuccessResult K input) := by
  have htruthy : jsTruthyStr config.propertyName = true := by
    rw [hpn]
    simpa [jsTruthyStr] using hne
  have hors : jsOrS config.propertyName "" = pn := by
    rw [hpn]
    simp [jsOrS, hne]
  have hdisp : processOperationE K "dissolve" input config sec =
      opDissolve K input config := rfl
  constructor
  · intro hnonempty
    have hpos : (input.features.filter isPolygonal).length > 0 :=
      List.length_pos.mpr hnonempty
    unfold processOperation
    rw [hdisp]
    unfold opDissolve
    rw [htruthy, if_pos rfl, if_pos hpos, hors]
    cases hd : K.dissolve (input.features.filter isPolygonal) pn with
    | ok dissolved => rfl
    | error msg => rfl
  · intro hempty
    have hlen : ¬ (input.features.filter isPolygonal).length > 0 := by
      rw [hempty]
      simp
    unfold processOperation
    rw [hdisp]
    unfold opDissolve
    rw [htruthy, if_pos rfl, if_neg hlen]
    rfl

/-- Witness for the amended C5: on an input holding one polygon and one
point, dissolve with a propertyName passes only the polygon to the
dissolve computation (the trivial kernel returns its input), so the point
is excluded from the output. -/
theorem dissolve_grouped_excludes_nonpolygons_witness :
    processOperation trivKernel "dissolve" ⟨[polyFeature, ptFeature]⟩
      { propertyName := some "grp" } none =
      createSuccessResult trivKernel ⟨[polyFeature]⟩ := by
  have h := (dissolve_grouped_excludes_nonpolygons trivKernel
    ⟨[polyFeature, ptFeature]⟩ { propertyName := some "grp" } none "grp" rfl
    (by decide)).1 (by decide)
  rw [h]
  rfl

lemma exbind_ok {α β : Type} (a : α) (g : α → Except String β) :
    (Except.ok a >>= g) = g a := rfl

/-- C6: the `area` case attaches to every feature an `area` property
obtained from the raw square-meter area by the exact ratios
km2 = m2 / 1000000, miles2 = m2 / 2589988.11, hectares = m2 / 10000,
together with an `area_units` property holding the configured units; in
particular a raw area of 2000000 m2 in square-kilometers yields exactly 2. -/
theorem area_exact_conversions (K : GeoKernel) (af : PFeature → ℚ)
    (input : FCol) (config : OpConfig) (sec : Option FCol)
    (harea : ∀ f ∈ input.features, K.area f = Except.ok (af f)) :
    (∀ a : ℚ, convertArea a "square-kilometers" = a / 1000000) ∧
    (∀ a : ℚ, convertArea a "square-miles" = a / (258998811 / 100)) ∧
    (∀ a : ℚ, convertArea a "hectares" = a / 10000) ∧
    (processOperation K "area" input config sec =
      createSuccessResult K ⟨input.features.map (fun f =>
        { f with properties := (mergeProps f.properties
            [("area", PValue.num (convertArea (af f) (jsOrS config.units "square-kilometers"))),
             ("area_units", PValue.str (jsOrS config.units "square-kilometers"))]) })⟩) ∧
    convertArea 2000000 "square-kilometers" = 2 := by
  refine ⟨?_, ?_, ?_, ?_, ?_⟩
  case refine_5 =>
    show (2000000 : ℚ) / 1000000 = 2
    norm_num
  · intro a
    simp [convertArea]
  · intro a
    simp [convertArea]
  · intro a
    simp [convertArea]
  · have hdisp : processOperationE K "area" input config sec = opArea K input config := rfl
    have hm : mapME (fun f => do
        let a ← K.area f
        pure { f with properties := (mergeProps f.properties
          [("area", PValue.num (convertArea a (jsOrS config.units "square-kilometers"))),
           ("area_units", PValue.str (jsOrS config.units "square-kilometers"))]) })
        input.features
        = Except.ok (input.features.map (fun f =>
            { f with properties := (mergeProps f.properties
              [("area", PValue.num (convertArea (af f) (jsOrS config.units "square-kilometers"))),
               ("area_units", PValue.str (jsOrS config.units "square-kilometers"))]) })) := by
      apply mapME_eq_ok
      intro f hf
      rw [harea f hf]
      rfl
    unfold processOperation
    rw [hdisp]
    simp only [opArea, hm]
    rfl

/-- Witness for C6: the trivial kernel reports a raw area of 2000000 m2
and the default units are square-kilometers, so the feature gets
area = 2 and area_units = "square-kilometers". -/
theorem area_exact_conversions_witness :
    processOperation trivKernel "area" ⟨[ptFeature]⟩ {} none =
      createSuccessResult trivKernel ⟨[{ ptFeature with properties :=
        (mergeProps ptFeature.properties
          [("area", PValue.num (convertArea 2000000 "square-kilometers")),
           ("area_units", PValue.str "square-kilometers")]) }]⟩ ∧
    convertArea 2000000 "square-kilometers" = 2 := by
  constructor
  · have h := (area_exact_conversions trivKernel (fun _ => 2000000) ⟨[ptFeature]⟩ {} none
      (fun f hf => rfl)).2.2.2.1
    rw [h]
    rfl
  · show (2000000 : ℚ) / 1000000 = 2
    norm_num

lemma foldlM_minDist (K : GeoKernel) (cent : PFeature → PFeature)
    (dist : PFeature → PFeature → ℚ)
    (hcent : ∀ f, K.centroid f = Except.ok (cent f))
    (hdist : ∀ a b, K.distance a b = Except.ok (dist a b)) (c : PFeature) :
    ∀ (ts : List PFeature) (acc : Option ℚ),
      (ts.foldlM (fun (acc : Option ℚ) target => do
        let tc ← K.centroid target
        let d ← K.distance c tc
        pure (match acc with
              | none => some d
              | some m => if d < m then some d else some m)) acc : Except String (Option ℚ))
      = Except.ok (ts.foldl (fun acc target => jsMinStep acc (dist c (cent target))) acc) := by
  intro ts
  induction ts with
  | nil =>
    intro acc
    rfl
  | cons t ts ih =>
    intro acc
    have hg : (do
        let tc ← K.centroid t
        let d ← K.distance c tc
        pure (match acc with
              | none => some d
              | some m => if d < m then some d else some m) : Except String (Option ℚ))
        = Except.ok (jsMinStep acc (dist c (cent t))) := by
      simp only [hcent, exbind_ok, hdist, jsMinStep]
      rfl
    simp only [List.foldlM_cons, List.foldl_cons]
    rw [hg]
    exact ih _

lemma minDistTo_eq (K : GeoKernel) (cent : PFeature → PFeature)
    (dist : PFeature → PFeature → ℚ)
    (hcent : ∀ f, K.centroid f = Except.ok (cent f))
    (hdist : ∀ a b, K.distance a b = Except.ok (dist a b))
    (c : PFeature) (ts : List PFeature) :
    minDistTo K c ts =
      Except.ok ((ts.map (fun tg => dist c (cent tg))).foldl jsMinStep none) := by
  unfold minDistTo
  rw [foldlM_minDist K cent dist hcent hdist c ts none]
  rw [List.foldl_map]

lemma foldl_jsMinStep_some (qs : List ℚ) :
    ∀ m : ℚ, qs.foldl jsMinStep (some m) = some (qs.foldl min m) := by
  induction qs with
  | nil =>
    intro m
    rfl
  | cons q qs ih =>
    intro m
    rw [List.foldl_cons, List.foldl_cons]
    have hstep : jsMinStep (some m) q = some (min m q) := by
      simp only [jsMinStep]
      rcases lt_or_le q m with h | h
      · rw [if_pos h, min_eq_right (le_of_lt h)]
      · rw [if_neg (not_lt.mpr h), min_eq_left h]
    rw [hstep, ih]

lemma foldl_jsMinStep_none (qs : List ℚ) :
    qs.foldl jsMinStep none =
      match qs with
      | [] => none
      | q :: qs' => some (qs'.foldl min q) := by
  cases qs with
  | nil => rfl
  | cons q qs' =>
    rw [List.foldl_cons]
    exact foldl_jsMinStep_some qs' q

lemma foldl_min_le_init (qs : List ℚ) : ∀ m : ℚ, qs.foldl min m ≤ m := by
  induction qs with
  | nil =>
    intro m
    exact le_refl m
  | cons q qs ih =>
    intro m
    rw [List.foldl_cons]
    exact le_trans (ih (min m q)) (min_le_left m q)

lemma foldl_min_le_mem (qs : List ℚ) : ∀ (m x : ℚ), x ∈ qs → qs.foldl min m ≤ x := by
  induction qs with
  | nil =>
    intro m x hx
    simp at hx
  | cons q qs ih =>
    intro m x hx
    rw [List.foldl_cons]
    rcases List.mem_cons.mp hx with h | h
    · subst h
      exact le_trans (foldl_min_le_init qs (min m x)) (min_le_right m x)
    · exact ih (min m q) x h

lemma foldl_min_attained (qs : List ℚ) :
    ∀ m : ℚ, qs.foldl min m = m ∨ qs.foldl min m ∈ qs := by
  induction qs with
  | nil =>
    intro m
    exact Or.inl rfl
  | cons q qs ih =>
    intro m
    rw [List.foldl_cons]
    rcases ih (min m q) with h | h
    · rcases le_total m q with hle | hle
      · rw [h, min_eq_left hle]
        exact Or.inl rfl
      · rw [h, min_eq_right hle]
        exact Or.inr (List.mem_cons_self q qs)
    · exact Or.inr (List.mem_cons_of_mem q h)

/-- C7: the `distance` case attaches to every primary feature the minimum
of the centroid-to-centroid distances to the secondary features (plus
`distance_units`), and `null` when the secondary feature array is empty. -/
theorem distance_min_centroid (K : GeoKernel) (cent : PFeature → PFeature)
    (dist : PFeature → PFeature → ℚ) (input sec : FCol) (config : OpConfig)
    (hcent : ∀ f, K.centroid f = Except.ok (cent f))
    (hdist : ∀ a b, K.distance a b = Except.ok (dist a b)) :
    (processOperation K "distance" input config (some sec) =
      createSuccessResult K ⟨input.features.map (fun f =>
        { f with properties := (mergeProps f.properties
            [("distance",
              match sec.features.map (fun tg => dist (cent f) (cent tg)) with
              | [] => PValue.null
              | q :: qs => PValue.num (qs.foldl min q)),
             ("distance_units", PValue.str (jsOrS config.units "kilometers"))]) })⟩) ∧
    (∀ (q : ℚ) (qs : List ℚ), qs.foldl min q ≤ q ∧
      (∀ x ∈ qs, qs.foldl min q ≤ x) ∧
      (qs.foldl min q = q ∨ qs.foldl min q ∈ qs)) := by
  constructor
  · have hdisp : processOperationE K "distance" input config (some sec) =
        opDistance K input config (some sec) := rfl
    have hm : mapME (fun f => do
        let c ← K.centroid f
        let minDist ← minDistTo K c sec.features
        pure { f with properties := (mergeProps f.properties
          [("distance", match minDist with
                        | none => PValue.null
                        | some q => PValue.num q),
           ("distance_units", PValue.str (jsOrS config.units "kilometers"))]) })
        input.features
        = Except.ok (input.features.map (fun f =>
            { f with properties := (mergeProps f.properties
              [("distance",
                match sec.features.map (fun tg => dist (cent f) (cent tg)) with
                | [] => PValue.null
                | q :: qs => PValue.num (qs.foldl min q)),
               ("distance_units", PValue.str (jsOrS config.units "kilometers"))]) })) := by
      apply mapME_eq_ok
      intro f hf
      rw [hcent f, exbind_ok, minDistTo_eq K cent dist hcent hdist (cent f) sec.features,
        exbind_ok, foldl_jsMinStep_none]
      cases hsf : sec.features.map (fun tg => dist (cent f) (cent tg)) with
      | nil => rfl
      | cons q qs => rfl
    unfold processOperation
    rw [hdisp]
    simp only [opDistance, hm]
    rfl
  · intro q qs
    exact ⟨foldl_min_le_init qs q, fun x hx => foldl_min_le_mem qs q x hx,
      foldl_min_attained qs q⟩

/-- Witness for C7: with an empty secondary collection every primary
feature gets `distance = null` and `distance_units = "kilometers"`. -/
theorem distance_min_centroid_witness :
    processOperation trivKernel "distance" ⟨[ptFeature]⟩ {} (some ⟨[]⟩) =
      createSuccessResult trivKernel ⟨[{ ptFeature with properties :=
        (mergeProps ptFeature.properties
          [("distance", PValue.null), ("distance_units", PValue.str "kilometers")]) }]⟩ := by
  have h := (distance_min_centroid trivKernel (fun f => f) (fun _ _ => 1)
    ⟨[ptFeature]⟩ ⟨[]⟩ {} (fun f => rfl) (fun a b => rfl)).1
  rw [h]
  rfl

lemma find?_mapNode (nodes : List WNode) (nodeId : String) (g : WNode → WNode)
    (hg : ∀ n, (g n).id = n.id) :
    (mapNode nodes nodeId g).find? (fun n => n.id == nodeId)
      = (nodes.find? (fun n => n.id == nodeId)).map g := by
  induction nodes with
  | nil => rfl
  | cons n ns ih =>
    unfold mapNode at ih ⊢
    rw [List.map_cons]
    by_cases h : (n.id == nodeId) = true
    · rw [if_pos h]
      simp [List.find?, hg n, h]
    · have h' : (n.id == nodeId) = false := by
        simpa using h
      rw [if_neg (by rw [h']; exact Bool.false_ne_true)]
      simp only [List.find?, h']
      exact ih

lemma any_false_find?_none {α : Type} (p : α → Bool) (l : List α)
    (h : l.any p = false) : l.find? p = none := by
  induction l with
  | nil => rfl
  | cons a l ih =>
    rw [List.any_cons] at h
    have ha : p a = false := by
      cases hpa : p a
      · rfl
      · rw [hpa] at h
        simp at h
    have hl : l.any p = false := by
      cases hal : l.any p
      · rfl
      · rw [hal] at h
        simp at h
    simp only [List.find?, ha]
    exact ih hl

lemma lookupStore_insert_self (store : List (String × FCol)) (nodeId : String)
    (fc : FCol) : lookupStore (insertStore store nodeId fc) nodeId = some fc := by
  unfold insertStore lookupStore
  cases hany : store.any (fun p => p.1 == nodeId) with
  | true =>
    rw [if_pos rfl]
    have haux : ∀ (l : List (String × FCol)), l.any (fun p => p.1 == nodeId) = true →
        (l.map (fun p => if p.1 == nodeId then (nodeId, fc) else p)).find?
          (fun p => p.1 == nodeId) = some (nodeId, fc) := by
      intro l
      induction l with
      | nil =>
        intro h
        simp at h
      | cons p ps ih =>
        intro h
        by_cases hp : (p.1 == nodeId) = true
        · rw [List.map_cons, if_pos hp]
          simp [List.find?]
        · have hp' : (p.1 == nodeId) = false := by
            simpa using hp
          rw [List.any_cons, hp'] at h
          simp only [Bool.false_or] at h
          rw [List.map_cons, if_neg (by rw [hp']; exact Bool.false_ne_true)]
          simp only [List.find?, hp']
          exact ih h
    rw [haux store hany]
    rfl
  | false =>
    rw [if_neg Bool.false_ne_true]
    rw [find?_append_eq, any_false_find?_none _ _ hany]
    simp [List.find?]

lemma lookupStore_insert_other (store : List (String × FCol))
    (nodeId j : String) (fc : FCol) (hne : j ≠ nodeId) :
    lookupStore (insertStore store nodeId fc) j = lookupStore store j := by
  have hj : ((nodeId, fc).1 == j) = false := by
    simp only [beq_eq_false_iff_ne]
    exact fun h => hne h.symm
  unfold insertStore lookupStore
  cases hany : store.any (fun p => p.1 == nodeId) with
  | true =>
    rw [if_pos rfl]
    have haux : ∀ (l : List (String × FCol)),
        (l.map (fun p => if p.1 == nodeId then (nodeId, fc) else p)).find?
          (fun p => p.1 == j) = l.find? (fun p => p.1 == j) := by
      intro l
      induction l with
      | nil => rfl
      | cons p ps ih =>
        by_cases hp : (p.1 == nodeId) = true
        · have hpid : p.1 = nodeId := by
            simpa using hp
          have hpj : (p.1 == j) = false := by
            simp only [beq_eq_false_iff_ne, hpid]
            exact fun h => hne h.symm
          rw [List.map_cons, if_pos hp]
          simp only [List.find?, hj, hpj]
          exact ih
        · have hp' : (p.1 == nodeId) = false := by
            simpa using hp
          rw [List.map_cons, if_neg (by rw [hp']; exact Bool.false_ne_true)]
          simp only [List.find?]
          cases hpj : (p.1 == j) with
          | true => rfl
          | false => exact ih
    rw [haux store]
  | false =>
    rw [if_neg Bool.false_ne_true]
    rw [find?_append_eq]
    cases hs : store.find? (fun p => p.1 == j) with
    | some x => rfl
    | none =>
      simp only [List.find?, hj]

/-- C3: a run of a processing node that fails - no upstream input, or the
operation returns a failure result - moves the node to the error state
with a human-readable message and leaves the Result Store entirely
untouched; only a successful run replaces the node's store entry (whole-
entry write), leaving every other entry unchanged. -/
theorem runNode_failure_preserves_store (K : GeoKernel) (edges : List WEdge)
    (st : EngineState) (nodeId : String) (node : WNode)
    (hfind : st.nodes.find? (fun n => n.id == nodeId) = some node)
    (hproc : actualType nodeId ∉
      ["fileInput", "urlInput", "fileOutput", "preview", "customCode"]) :
    (getInputData edges st.store nodeId = none →
      (runNode K edges st nodeId).store = st.store ∧
      statusOf (runNode K edges st nodeId) nodeId = some "error" ∧
      errorOf (runNode K edges st nodeId) nodeId =
        some "No input data connected. Connect an input node first.") ∧
    (∀ input, getInputData edges st.store nodeId = some input →
      ((processOperation K (actualType nodeId) input node.config
          (getSecondaryInput edges st.store nodeId)).success = false ∨
        (processOperation K (actualType nodeId) input node.config
          (getSecondaryInput edges st.store nodeId)).data = none →
        (runNode K edges st nodeId).store = st.store ∧
        statusOf (runNode K edges st nodeId) nodeId = some "error" ∧
        errorOf (runNode K edges st nodeId) nodeId =
          some ((processOperation K (actualType nodeId) input node.config
            (getSecondaryInput edges st.store nodeId)).error.getD
              "Processing failed")) ∧
      (∀ d, (processOperation K (actualType nodeId) input node.config
          (getSecondaryInput edges st.store nodeId)).success = true →
        (processOperation K (actualType nodeId) input node.config
          (getSecondaryInput edges st.store nodeId)).data = some d →
        lookupStore (runNode K edges st nodeId).store nodeId = some d ∧
        (∀ j, j ≠ nodeId →
          lookupStore (runNode K edges st nodeId).store j =
            lookupStore st.store j) ∧
        statusOf (runNode K edges st nodeId) nodeId = some "success")) := by
  simp only [List.mem_cons, List.not_mem_nil, or_false, not_or] at hproc
  obtain ⟨h1, h2, h3, h4, h5⟩ := hproc
  have hrun : runNode K edges st nodeId =
      match runNodeTry K edges (setRunning st nodeId) nodeId (actualType nodeId)
          node.config with
      | Except.ok st' => st'
      | Except.error msg => setErrorState (setRunning st nodeId) nodeId msg := by
    unfold runNode
    rw [hfind]
  have htry : runNodeTry K edges (setRunning st nodeId) nodeId (actualType nodeId)
      node.config =
      match getInputData edges st.store nodeId with
      | none => Except.error "No input data connected. Connect an input node first."
      | some input =>
          finishRun (setRunning st nodeId) nodeId
            (processOperation K (actualType nodeId) input node.config
              (getSecondaryInput edges st.store nodeId)) := by
    unfold runNodeTry
    rw [if_neg h1, if_neg h2, if_neg h3, if_neg h4, if_neg h5]
    rfl
  have hfindR : (setRunning st nodeId).nodes.find? (fun n => n.id == nodeId)
      = some { node with status := "running", error := none } := by
    have hn : (setRunning st nodeId).nodes
        = mapNode st.nodes nodeId
            (fun n => { n with status := "running", error := none }) := rfl
    rw [hn, find?_mapNode st.nodes nodeId
      (fun n => { n with status := "running", error := none }) (fun n => rfl), hfind]
    rfl
  have hfindE : ∀ msg, (setErrorState (setRunning st nodeId) nodeId msg).nodes.find?
      (fun n => n.id == nodeId)
      = some { node with status := "error", error := some msg } := by
    intro msg
    have hn : (setErrorState (setRunning st nodeId) nodeId msg).nodes
        = mapNode (setRunning st nodeId).nodes nodeId
            (fun n => { n with status := "error", error := some msg }) := rfl
    rw [hn, find?_mapNode (setRunning st nodeId).nodes nodeId
      (fun n => { n with status := "error", error := some msg }) (fun n => rfl), hfindR]
    rfl
  have hfindU : ∀ (d : FCol) (stats : Option Stats),
      (handleUpdateData (setRunning st nodeId) nodeId d stats).nodes.find?
        (fun n => n.id == nodeId)
      = some { node with status := "success", error := none, preview := (some ⟨"geojson", stats.map (fun s => s.featureCount), stats.map (fun s => s.geometryType), some "EPSG:4326"⟩) } := by
    intro d stats
    have hn : (handleUpdateData (setRunning st nodeId) nodeId d stats).nodes
        = mapNode (setRunning st nodeId).nodes nodeId (fun n =>
            { n with status := "success", preview := (some ⟨"geojson", stats.map (fun s => s.featureCount), stats.map (fun s => s.geometryType), some "EPSG:4326"⟩) }) := rfl
    rw [hn, find?_mapNode (setRunning st nodeId).nodes nodeId
      (fun n => { n with status := "success", preview := (some ⟨"geojson", stats.map (fun s => s.featureCount), stats.map (fun s => s.geometryType), some "EPSG:4326"⟩) }) (fun n => rfl), hfindR]
    rfl
  constructor
  · intro hin
    have hred : runNode K edges st nodeId =
        setErrorState (setRunning st nodeId) nodeId
          "No input data connected. Connect an input node first." := by
      rw [hrun, htry, hin]
    rw [hred]
    refine ⟨rfl, ?_, ?_⟩
    · unfold statusOf
      rw [hfindE]
      rfl
    · unfold errorOf
      rw [hfindE]
      rfl
  · intro input hin
    have hred : runNode K edges st nodeId =
        match finishRun (setRunning st nodeId) nodeId
          (processOperation K (actualType nodeId) input node.config
            (getSecondaryInput edges st.store nodeId)) with
        | Except.ok st' => st'
        | Except.error msg => setErrorState (setRunning st nodeId) nodeId msg := by
      rw [hrun, htry, hin]
    constructor
    · intro hfail
      have hfin : finishRun (setRunning st nodeId) nodeId
          (processOperation K (actualType nodeId) input node.config
            (getSecondaryInput edges st.store nodeId))
          = Except.error ((processOperation K (actualType nodeId) input node.config
              (getSecondaryInput edges st.store nodeId)).error.getD
                "Processing failed") := by
        unfold finishRun
        rcases hfail with h | h
        · rw [if_neg (by rw [h]; exact Bool.false_ne_true)]
        · by_cases hs : (processOperation K (actualType nodeId) input node.config
              (getSecondaryInput edges st.store nodeId)).success = true
          · rw [if_pos hs, h]
          · rw [if_neg hs]
      rw [hred, hfin]
      refine ⟨rfl, ?_, ?_⟩
      · unfold statusOf
        rw [hfindE]
        rfl
      · unfold errorOf
        rw [hfindE]
        rfl
    · intro d hs hd
      have hfin : finishRun (setRunning st nodeId) nodeId
          (processOperation K (actualType nodeId) input node.config
            (getSecondaryInput edges st.store nodeId))
          = Except.ok (handleUpdateData (setRunning st nodeId) nodeId d
              (processOperation K (actualType nodeId) input node.config
                (getSecondaryInput edges st.store nodeId)).stats) := by
        unfold finishRun
        rw [if_pos hs, hd]
      rw [hred, hfin]
      refine ⟨?_, ?_, ?_⟩
      · show lookupStore (insertStore st.store nodeId d) nodeId = some d
        exact lookupStore_insert_self st.store nodeId d
      · intro j hj
        show lookupStore (insertStore st.store nodeId d) j = lookupStore st.store j
        exact lookupStore_insert_other st.store nodeId j d hj
      · unfold statusOf
        rw [hfindU]
        rfl

/-- Witness for C3: a thrown buffer computation fails the run - the store
is untouched and the node carries the error message - while the same run
with a working kernel replaces the node's store entry and reaches the
success state. -/
theorem runNode_failure_preserves_store_witness :
    (runNode kernelBufferThrows edges3 st3 "buffer-1").store = st3.store ∧
    statusOf (runNode kernelBufferThrows edges3 st3 "buffer-1") "buffer-1" =
      some "error" ∧
    errorOf (runNode kernelBufferThrows edges3 st3 "buffer-1") "buffer-1" =
      some "Invalid geometry" ∧
    lookupStore (runNode trivKernel edges3 st3 "buffer-1").store "buffer-1" =
      some ⟨[ptFeature]⟩ ∧
    statusOf (runNode trivKernel edges3 st3 "buffer-1") "buffer-1" =
      some "success" := by
  have hfail := ((runNode_failure_preserves_store kernelBufferThrows edges3 st3
    "buffer-1" node3 rfl (by decide)).2 ⟨[ptFeature]⟩ rfl).1 (Or.inl rfl)
  have hsucc := ((runNode_failure_preserves_store trivKernel edges3 st3
    "buffer-1" node3 rfl (by decide)).2 ⟨[ptFeature]⟩ rfl).2 ⟨[ptFeature]⟩ rfl rfl
  exact ⟨hfail.1, hfail.2.1, hfail.2.2, hsucc.1, hsucc.2.2⟩

end GeoFlow
